import Mathlib

/-!
Shallow embedding of the core of the `guess-the-artist` repository
(`src/unnamed/part_005`, which contains the current `game.js` and
`spotify-client.js`), together with proofs of the specification claims.

Conventions of the embedding:
* JS timestamps (`Date.now()`) are `Int` milliseconds, passed explicitly.
* Network calls (`fetch`) are modelled by explicit response values: each
  attempted request consumes one `HttpResp`; `Option.none` in a response
  slot models a network failure (the fetch itself throwing).
* `localStorage` slots are fields of the state record (`lsRefreshToken`,
  `lsCodeVerifier`, mirroring the keys `spotify_refresh_token` and
  `spotify_code_verifier`).
* Thrown JS exceptions are modelled as explicit result values.
* `Math.random()`-driven shuffling is parametrised by an oracle
  `rand : Nat → Nat`; the swap target for loop index `i` is
  `rand i % (i + 1)`, matching `Math.floor(Math.random() * (i + 1))`,
  which ranges over `[0, i]`.
-/

namespace GTA

/-! ## Authentication Session Manager (`spotify-client.js`) -/

/-- Response of one token-endpoint request: a 2xx JSON body
`{access_token, refresh_token?, expires_in}` or a non-ok status. -/
inductive HttpResp where
  | ok (accessToken : String) (refreshToken : Option String) (expiresIn : Int)
  | err (status : Nat)
deriving DecidableEq

/-- In-memory and durable credential state of `SpotifyClient`. -/
structure AuthState where
  accessToken : Option String
  refreshToken : Option String
  tokenExpiry : Option Int
  /-- durable slot `spotify_refresh_token` in localStorage -/
  lsRefreshToken : Option String
  /-- ephemeral slot `spotify_code_verifier` in localStorage -/
  lsCodeVerifier : Option String
deriving DecidableEq

/-- The `logout()` method: clears in-memory tokens and both localStorage
slots. -/
def logout (s : AuthState) : AuthState :=
  { s with accessToken := none, refreshToken := none, tokenExpiry := none,
           lsRefreshToken := none, lsCodeVerifier := none }

/-- The `isUserAuthenticated()` method: an in-memory refresh token or a
durable one exists. -/
def isUserAuthenticated (s : AuthState) : Bool :=
  s.refreshToken.isSome || s.lsRefreshToken.isSome

/-- The `isAuthenticated()` method: an in-memory access token or a durable
refresh token exists. -/
def isAuthenticated (s : AuthState) : Bool :=
  s.accessToken.isSome || s.lsRefreshToken.isSome

/-- Outcome of a token-acquisition call (`throw` paths made explicit). -/
inductive TokenResult where
  /-- the method returned normally with a fresh access token -/
  | success (token : String)
  /-- `throw new Error('No refresh token available...')` -/
  | noToken
  /-- a non-ok response led to `throw` -/
  | failure
  /-- the fetch itself threw (network error, rethrown by the catch) -/
  | netFail
deriving DecidableEq

/-- The `refreshAccessToken(retryCount)` method.  `resps` supplies one
response per attempted POST to the token endpoint, in order.  Returns the
final state, the outcome, and the list of backoff delays (ms) awaited
between attempts. -/
def refreshAccessToken (now : Int) (s : AuthState) (retryCount : Nat) :
    List HttpResp → AuthState × TokenResult × List Nat
  | [] =>
    -- const refreshToken = this.refreshToken || localStorage.getItem(...)
    match s.refreshToken.orElse (fun _ => s.lsRefreshToken) with
    | none => (s, .noToken, [])
    | some _ => (s, .netFail, [])
  | resp :: rest =>
    match s.refreshToken.orElse (fun _ => s.lsRefreshToken) with
    | none => (s, .noToken, [])
    | some _ =>
      match resp with
      | .ok tok newRt expiresIn =>
        let s := { s with accessToken := some tok,
                          tokenExpiry := some (now + expiresIn * 1000) }
        -- refresh token might be rotated
        let s := match newRt with
          | some r => { s with refreshToken := some r, lsRefreshToken := some r }
          | none => s
        (s, .success tok, [])
      | .err status =>
        if 500 ≤ status ∧ retryCount < 3 then
          -- exponential backoff: 1s, 2s, 4s, then recurse
          let delay := 2 ^ retryCount * 1000
          let r := refreshAccessToken now s (retryCount + 1) rest
          (r.1, r.2.1, delay :: r.2.2)
        else
          -- don't logout on server errors - token might still be valid
          let s := if status < 500 then logout s else s
          (s, .failure, [])

/-- The `getClientCredentialsToken()` method (anonymous mode); `resp` is
the response of the single POST, `none` modelling a network failure. -/
def getClientCredentialsToken (now : Int) (resp : Option HttpResp)
    (s : AuthState) : AuthState × TokenResult :=
  match resp with
  | none => (s, .netFail)
  | some (.err _) => (s, .failure)
  | some (.ok tok _ expiresIn) =>
    -- no refresh token in client credentials flow
    ({ s with accessToken := some tok,
              tokenExpiry := some (now + expiresIn * 1000) }, .success tok)

/-- Which network action `ensureAuthenticated()` ended up performing. -/
inductive AuthAction where
  /-- a call to `refreshAccessToken` -/
  | refreshed
  /-- a call to `getClientCredentialsToken` -/
  | anonymous
  /-- no network action at all -/
  | noop
deriving DecidableEq

/-- The `ensureAuthenticated()` method.  In JS, `this.tokenExpiry` can be
`null` while an access token exists; `null` coerces to `0` in the
comparison, which `Option.getD 0` reproduces. -/
def ensureAuthenticated (now : Int) (refreshResps : List HttpResp)
    (ccResp : Option HttpResp) (s : AuthState) : AuthState × AuthAction :=
  match s.accessToken with
  | none =>
    match s.lsRefreshToken with
    | some rt =>
      -- no access token, restoring from refresh token
      let s := { s with refreshToken := some rt }
      ((refreshAccessToken now s 0 refreshResps).1, .refreshed)
    | none =>
      -- no user auth - use anonymous mode (client credentials)
      ((getClientCredentialsToken now ccResp s).1, .anonymous)
  | some _ =>
    -- if token is expired or about to expire (within 5 min), refresh it
    if s.tokenExpiry.getD 0 - 5 * 60 * 1000 ≤ now then
      if isUserAuthenticated s then
        ((refreshAccessToken now s 0 refreshResps).1, .refreshed)
      else
        ((getClientCredentialsToken now ccResp s).1, .anonymous)
    else
      (s, .noop)

/-- Query parameters of the OAuth redirect callback URL. -/
structure CallbackParams where
  code : Option String
  errorParam : Option String
deriving DecidableEq

/-- Outcome of `handleCallback()` with every `throw` path explicit. -/
inductive CallbackResult where
  /-- returned `true`: tokens stored -/
  | success
  /-- returned `false`: no code in the URL, no callback in progress -/
  | noCallback
  /-- `throw`: the provider reported an error in the callback parameters -/
  | authDenied (e : String)
  /-- `throw`: no stored PKCE code verifier was found -/
  | missingVerifier
  /-- `throw` (rethrown by the catch): token exchange returned non-ok -/
  | exchangeFailed
  /-- `throw` (rethrown by the catch): the fetch itself failed -/
  | netFail
deriving DecidableEq

/-- The `handleCallback()` method.  `exchangeResp` is the response of the
code-exchange POST (`none` = network failure); it is only consulted when
the exchange is actually attempted. -/
def handleCallback (now : Int) (params : CallbackParams)
    (exchangeResp : Option HttpResp) (s : AuthState) :
    AuthState × CallbackResult :=
  match params.errorParam with
  | some e => (s, .authDenied e)
  | none =>
    match params.code with
    | none => (s, .noCallback)
    | some _ =>
      match s.lsCodeVerifier with
      | none => (s, .missingVerifier)
      | some _ =>
        match exchangeResp with
        | none => ({ s with lsCodeVerifier := none }, .netFail)
        | some (.err _) => ({ s with lsCodeVerifier := none }, .exchangeFailed)
        | some (.ok tok rt expiresIn) =>
          ({ s with accessToken := some tok,
                    refreshToken := rt,
                    tokenExpiry := some (now + expiresIn * 1000),
                    lsRefreshToken := rt,
                    lsCodeVerifier := none }, .success)

/-! ## Game Round Engine (`game.js`) -/

/-- An artist record as consumed by the engine (the unused `genres` and
`tracks` fields are omitted). -/
structure Artist where
  id : String
  name : String
  image : Option String
  popularity : Nat
deriving DecidableEq

/-- A team from the game configuration. -/
structure Team where
  id : String
  members : List String
deriving DecidableEq

/-- Placeholder used where JS would read a property of `undefined`; the
engine only dereferences in-bounds indices in the flows we verify. -/
def noTeam : Team := ⟨"", []⟩

/-- Placeholder artist, same role as `noTeam`. -/
def noArtist : Artist := ⟨"", "", none, 0⟩

inductive GameMode where
  | individual
  | swapPlaces
deriving DecidableEq

/-- The visible phase of the game page (which `phase-*` element is shown). -/
inductive Phase where
  | ready
  | playing
  | roundDone
  | teamDone
  | gameOver
  | errorShown
deriving DecidableEq

/-- The parts of the `gameConfig` object the engine reads.  JS treats `0`
and missing numeric fields alike (falsy), so `minArtistsNeeded = 0` encodes
an absent value. -/
structure GameConfig where
  teams : List Team
  playerDuration : Nat
  gameMode : GameMode
  playlistIds : List String
  minPopularity : Nat
  minArtistsNeeded : Nat
  totalTimePerTeam : Nat

/-- A single recorded guess (`stats.guesses` entries).  Times are seconds
as rationals, standing for the JS float `(now - start) / 1000`. -/
structure Guess where
  artist : Artist
  time : ℚ
  wasCorrect : Bool

/-- The fastest-guess record of a player. -/
structure FastGuess where
  time : ℚ
  artist : Artist

/-- Per-player statistics (`gameState.playerStats[playerId]`). -/
structure PlayerStats where
  name : String
  correct : Nat
  passed : Nat
  fastestGuess : Option FastGuess
  currentStreak : Nat
  currentStreakArtists : List Artist
  bestStreak : Nat
  bestStreakArtists : List Artist
  guesses : List Guess

/-- The mutable `gameState` object.  `scores` and `playerStats` are JS
objects keyed by team / player id, modelled as total functions (keys the
init loop never creates are read only through in-bounds ids, and carry the
same zero values the init loop writes).  `endRoundCount` is a ghost
instrumentation counter incremented exactly when `endRound()` runs; it has
no JS counterpart and is read by no definition. -/
structure GameState where
  artists : List Artist
  currentTeamIndex : Nat
  currentPlayerIndex : Nat
  currentArtistIndex : Nat
  scores : String → Nat
  playerStats : String → PlayerStats
  roundStartTime : Int
  currentArtistStartTime : Int
  remainingTime : Int
  initialRoundDuration : Int
  timerActive : Bool
  endRoundCount : Nat
  phase : Phase

/-- Swap two positions of a list, the effect of the JS destructuring
assignment `[a[i], a[j]] = [a[j], a[i]]` on an array. -/
def swapL {α : Type} (l : List α) (i j : Nat) : List α :=
  match l[i]?, l[j]? with
  | some a, some b => (l.set i b).set j a
  | _, _ => l

/-- Loop body of `shuffleArray`: iterate `i` from `n` down to `1`, swapping
position `i` with position `rand i % (i + 1)`. -/
def shuffleAux {α : Type} (rand : Nat → Nat) : Nat → List α → List α
  | 0, l => l
  | n + 1, l => shuffleAux rand n (swapL l (n + 1) (rand (n + 1) % (n + 2)))

/-- The `shuffleArray` function (in-place Fisher-Yates in JS). -/
def shuffleArray {α : Type} (rand : Nat → Nat) (l : List α) : List α :=
  shuffleAux rand (l.length - 1) l

/-- Initial per-player record created by the `DOMContentLoaded` init loop
(the JS also stores the member list for display; we keep the name). -/
def initPlayerStats (name : String) : PlayerStats :=
  ⟨name, 0, 0, none, 0, [], 0, [], []⟩

/-- The `gameState` value after the init loop of `DOMContentLoaded`:
zero scores, fresh stats, the fetched pool, phase Ready. -/
def initialState (pool : List Artist) : GameState :=
  { artists := pool
    currentTeamIndex := 0
    currentPlayerIndex := 0
    currentArtistIndex := 0
    scores := fun _ => 0
    playerStats := fun _ => initPlayerStats ""
    roundStartTime := 0
    currentArtistStartTime := 0
    remainingTime := 0
    initialRoundDuration := 0
    timerActive := false
    endRoundCount := 0
    phase := .ready }

/-- The team at `gameConfig.teams[gameState.currentTeamIndex]`. -/
def activeTeam (cfg : GameConfig) (s : GameState) : Team :=
  cfg.teams.getD s.currentTeamIndex noTeam

/-- The player id string `` `${team.id}-${player}` `` of the active player. -/
def activePlayerId (cfg : GameConfig) (s : GameState) : String :=
  (activeTeam cfg s).id ++ "-" ++ (activeTeam cfg s).members.getD s.currentPlayerIndex ""

/-- Pointwise update of the player-stats map at one player id. -/
def updStats (pid : String) (f : PlayerStats → PlayerStats)
    (m : String → PlayerStats) : String → PlayerStats :=
  fun p => if p = pid then f (m p) else m p

/-- The `showCurrentArtist()` function: on pool exhaustion reshuffle and
restart from index 0; then display the artist at the current index and
remember when it was shown. -/
def showCurrentArtist (rand : Nat → Nat) (now : Int) (s : GameState) : GameState :=
  let s :=
    if s.artists.length ≤ s.currentArtistIndex then
      { s with artists := shuffleArray rand s.artists, currentArtistIndex := 0 }
    else s
  { s with currentArtistStartTime := now }

/-- The artist that `showCurrentArtist()` displays from state `s`. -/
def displayedArtist (rand : Nat → Nat) (now : Int) (s : GameState) : Option Artist :=
  let s := showCurrentArtist rand now s
  s.artists[s.currentArtistIndex]?

/-- The `startRound()` function. -/
def startRound (cfg : GameConfig) (rand : Nat → Nat) (now : Int)
    (s : GameState) : GameState :=
  let team := activeTeam cfg s
  -- swap-places mode: use total team duration; individual: player duration
  let duration : Int :=
    if cfg.gameMode = .swapPlaces then
      (cfg.playerDuration * team.members.length : Nat)
    else (cfg.playerDuration : Nat)
  let s := { s with phase := .playing
                    remainingTime := duration
                    initialRoundDuration := duration
                    roundStartTime := now
                    playerStats := updStats (activePlayerId cfg s)
                      (fun st => { st with currentStreak := 0,
                                           currentStreakArtists := [] })
                      s.playerStats }
  let s := showCurrentArtist rand now s
  -- startTimer(): install the recurring 1s interval
  { s with timerActive := true }

/-- The `showTeamDone()` function (state part; DOM display elided). -/
def showTeamDone (cfg : GameConfig) (s : GameState) : GameState :=
  if s.currentTeamIndex < cfg.teams.length - 1 then
    { s with currentTeamIndex := s.currentTeamIndex + 1
             currentPlayerIndex := 0
             phase := .teamDone }
  else
    { s with phase := .gameOver }

/-- The `endRound()` function: stop the timer, advance the artist index
(the "spoiler fix"), then either go straight to the team-done flow
(swap-places) or show the round summary and stage the next player. -/
def endRound (cfg : GameConfig) (s : GameState) : GameState :=
  let s := { s with timerActive := false
                    endRoundCount := s.endRoundCount + 1
                    currentArtistIndex := s.currentArtistIndex + 1 }
  let team := activeTeam cfg s
  if cfg.gameMode = .swapPlaces then
    showTeamDone cfg s
  else
    let s := { s with phase := .roundDone }
    if s.currentPlayerIndex < team.members.length - 1 then
      { s with currentPlayerIndex := s.currentPlayerIndex + 1 }
    else s

/-- One firing of the `setInterval` callback installed by `startTimer()`;
once the interval has been cleared the callback no longer runs, so a
cleared timer makes the tick a no-op. -/
def timerTick (cfg : GameConfig) (s : GameState) : GameState :=
  if s.timerActive then
    let s := { s with remainingTime := s.remainingTime - 1 }
    if s.remainingTime ≤ 0 then endRound cfg s else s
  else s

/-- The `handlePass()` function. -/
def handlePass (cfg : GameConfig) (rand : Nat → Nat) (now : Int)
    (s : GameState) : GameState :=
  let pid := activePlayerId cfg s
  let s := { s with playerStats := updStats pid
                      (fun st => { st with passed := st.passed + 1,
                                           currentStreak := 0,
                                           currentStreakArtists := [] })
                      s.playerStats
                    currentArtistIndex := s.currentArtistIndex + 1 }
  showCurrentArtist rand now s

/-- Streak part of `handleCorrect`: bump the correct count and the current
streak, extend its artist list, and promote it to best when it beats the
prior best. -/
def bumpStreak (artist : Artist) (st : PlayerStats) : PlayerStats :=
  let st := { st with correct := st.correct + 1,
                      currentStreak := st.currentStreak + 1,
                      currentStreakArtists := st.currentStreakArtists ++ [artist] }
  -- update best streak if current is better
  if st.bestStreak < st.currentStreak then
    { st with bestStreak := st.currentStreak,
              bestStreakArtists := st.currentStreakArtists }
  else st

/-- Fastest-guess part of `handleCorrect`. -/
def trackFastest (guessTime : ℚ) (artist : Artist) (st : PlayerStats) :
    PlayerStats :=
  match st.fastestGuess with
  | none => { st with fastestGuess := some ⟨guessTime, artist⟩ }
  | some fg =>
    if guessTime < fg.time then { st with fastestGuess := some ⟨guessTime, artist⟩ }
    else st

/-- Guess-log part of `handleCorrect`. -/
def recordGuess (guessTime : ℚ) (artist : Artist) (st : PlayerStats) :
    PlayerStats :=
  { st with guesses := st.guesses ++ [⟨artist, guessTime, true⟩] }

/-- The `handleCorrect()` function: update the active player's stats in the
order of the JS statements, add one point to the active team, and advance
to the next artist. -/
def handleCorrect (cfg : GameConfig) (rand : Nat → Nat) (now : Int)
    (s : GameState) : GameState :=
  let team := activeTeam cfg s
  let pid := activePlayerId cfg s
  let artist := s.artists.getD s.currentArtistIndex noArtist
  let guessTime : ℚ := ((now - s.currentArtistStartTime : Int) : ℚ) / 1000
  let s := { s with playerStats := updStats pid
                      (fun st => recordGuess guessTime artist
                        (trackFastest guessTime artist (bumpStreak artist st)))
                      s.playerStats
                    scores := fun tid =>
                      if tid = team.id then s.scores tid + 1 else s.scores tid
                    currentArtistIndex := s.currentArtistIndex + 1 }
  showCurrentArtist rand now s

/-! ## Artist Pool Manager (`fetchArtists` pipeline) -/

/-- Popularity filtering step of `fetchArtists` (applied only when the
floor is positive, as in the JS). -/
def filterByPopularity (minPop : Nat) (l : List Artist) : List Artist :=
  if 0 < minPop then l.filter (fun a => minPop ≤ a.popularity) else l

/-- The value `artistsNeeded` computed in `fetchArtists`:
`gameConfig.minArtistsNeeded || totalTimePerTeam * teams.length`. -/
def artistsNeeded (cfg : GameConfig) : Nat :=
  if cfg.minArtistsNeeded ≠ 0 then cfg.minArtistsNeeded
  else cfg.totalTimePerTeam * cfg.teams.length

/-- The value `minNeeded` computed in `fetchArtists`:
`gameConfig.minArtistsNeeded || 20`. -/
def minNeeded (cfg : GameConfig) : Nat :=
  if cfg.minArtistsNeeded ≠ 0 then cfg.minArtistsNeeded else 20

/-- Pool sizing of `fetchArtists`: filter by popularity; when more artists
remain than needed, sort by popularity descending and cut the bottom 20%
of the excess (`Math.floor(remaining * 0.2)`, i.e. `remaining / 5`); then
shuffle.  The result is stored into `gameState.artists`. -/
def buildPool (rand : Nat → Nat) (cfg : GameConfig) (fetched : List Artist) :
    List Artist :=
  let allArtists := filterByPopularity cfg.minPopularity fetched
  let needed := artistsNeeded cfg
  let allArtists :=
    if needed < allArtists.length then
      let sorted := allArtists.mergeSort (fun a b => b.popularity ≤ a.popularity)
      let remaining := allArtists.length - needed
      let bottomTwentyPercent := remaining / 5
      sorted.take (allArtists.length - bottomTwentyPercent)
    else allArtists
  shuffleArray rand allArtists

/-- The structured diagnostic `debugInfo` built on artist shortage. -/
structure DebugInfo where
  artistsFound : Nat
  minNeeded : Nat
  artistsNeeded : Nat
  minPopularity : Nat
  playlistIds : List String
  teams : Nat
  playerDuration : Nat
deriving DecidableEq

/-- Outcome of the shortage check at the end of `fetchArtists`: either the
error phase is shown with the diagnostic, or the pool is accepted. -/
inductive FetchOutcome where
  | shortage (info : DebugInfo)
  | pool (artists : List Artist)
deriving DecidableEq

/-- The pool-sizing and shortage-check logic of `fetchArtists` (network
fetching and deduplication supply `fetched`). -/
def fetchArtists (rand : Nat → Nat) (cfg : GameConfig)
    (fetched : List Artist) : FetchOutcome :=
  let pool := buildPool rand cfg fetched
  let mn := minNeeded cfg
  if pool.length < mn then
    .shortage ⟨pool.length, mn, artistsNeeded cfg, cfg.minPopularity,
               cfg.playlistIds, cfg.teams.length, cfg.playerDuration⟩
  else .pool pool

/-- The tail of the `DOMContentLoaded` handler: `await fetchArtists()`
followed unconditionally by `showReadyPhase()`.  On shortage,
`showErrorPhase` makes the error phase visible, but `fetchArtists` merely
returns and `showReadyPhase()` then hides every phase (including the error
one) and shows the ready phase with the go button wired. -/
def pageInit (rand : Nat → Nat) (cfg : GameConfig) (fetched : List Artist) :
    GameState :=
  let s := initialState (buildPool rand cfg fetched)
  let s :=
    match fetchArtists rand cfg fetched with
    | .shortage _ => { s with phase := .errorShown }
    | .pool _ => s
  -- showReadyPhase() runs unconditionally after fetchArtists returns
  { s with phase := .ready }

/-! ## Event traces -/

/-- One user- or timer-initiated operation on the engine.  The shuffle
oracle and the current wall-clock instant travel with the event. -/
inductive GameEvent where
  /-- the go / continue button: `startRound()` -/
  | go (rand : Nat → Nat) (now : Int)
  /-- the correct button: `handleCorrect()` -/
  | correct (rand : Nat → Nat) (now : Int)
  /-- the pass button: `handlePass()` -/
  | pass (rand : Nat → Nat) (now : Int)
  /-- one firing of the countdown interval -/
  | tick
  /-- the continue button after the last player: `showTeamDone()` -/
  | teamDone

/-- Dispatch one event to the corresponding engine function. -/
def applyEvent (cfg : GameConfig) (s : GameState) : GameEvent → GameState
  | .go rand now => startRound cfg rand now s
  | .correct rand now => handleCorrect cfg rand now s
  | .pass rand now => handlePass cfg rand now s
  | .tick => timerTick cfg s
  | .teamDone => showTeamDone cfg s

/-- Run a whole event trace. -/
def applyEvents (cfg : GameConfig) : List GameEvent → GameState → GameState
  | [], s => s
  | e :: es, s => applyEvents cfg es (applyEvent cfg s e)

/-- Number of "correct" signals in a trace. -/
def countCorrect : List GameEvent → Nat
  | [] => 0
  | .correct _ _ :: es => countCorrect es + 1
  | _ :: es => countCorrect es

/-- Sum of all teams' scores. -/
def scoreSum (cfg : GameConfig) (s : GameState) : Nat :=
  (cfg.teams.map (fun t => s.scores t.id)).sum

/-- The spec invariant `bestStreak ≥ currentStreak`, for every player. -/
def streakInv (s : GameState) : Prop :=
  ∀ pid, (s.playerStats pid).currentStreak ≤ (s.playerStats pid).bestStreak

/-- Server-error (5xx) responses of the token endpoint. -/
def is5xx : HttpResp → Bool
  | .err status => decide (500 ≤ status)
  | .ok .. => false

/-! ## Concrete data used to instantiate the theorems -/

/-- A fixed shuffle oracle (every swap targets position 0). -/
def rand0 : Nat → Nat := fun _ => 0

def artA : Artist := ⟨"a1", "Abba", none, 70⟩

def artB : Artist := ⟨"a2", "Beatles", none, 80⟩

def artC : Artist := ⟨"a3", "Cher", none, 60⟩

def poolW : List Artist := [artA, artB, artC]

def cfgW : GameConfig :=
  ⟨[⟨"t1", ["Alice", "Bob"]⟩, ⟨"t2", ["Carol", "Dave"]⟩], 10, .individual,
   [], 0, 0, 20⟩

/-- A freshly started round of `cfgW` (duration 10, timer installed). -/
def sW : GameState := startRound cfgW rand0 0 (initialState poolW)

/-- Swap-places configuration: one team of three, 5s per player. -/
def cfgSW : GameConfig :=
  ⟨[⟨"t3", ["Eve", "Fay", "Gil"]⟩], 5, .swapPlaces, [], 0, 0, 15⟩

/-- Mid-round state displaying the last artist of a two-artist pool. -/
def sEnd : GameState :=
  { initialState [artA, artB] with
      phase := .playing, currentArtistIndex := 1, timerActive := true }

/-- Mid-round state displaying the first artist of the three-artist pool. -/
def sMid : GameState :=
  { initialState poolW with phase := .playing, timerActive := true }

/-- Mid-round state whose artist index has run past a three-artist pool. -/
def sPast : GameState :=
  { initialState poolW with
      phase := .playing, currentArtistIndex := 3, timerActive := true }

/-- Five-artist fetch result for the shortage scenario. -/
def poolFive : List Artist :=
  [⟨"a1", "A", none, 50⟩, ⟨"a2", "B", none, 50⟩, ⟨"a3", "C", none, 50⟩,
   ⟨"a4", "D", none, 50⟩, ⟨"a5", "E", none, 50⟩]

/-- Configuration demanding at least 20 artists. -/
def cfgShort : GameConfig :=
  ⟨[⟨"t1", ["Alice", "Bob"]⟩, ⟨"t2", ["Carol", "Dave"]⟩], 60, .individual,
   ["pl1"], 0, 20, 120⟩

/-- Auth state of a logged-in user whose refresh token is in memory. -/
def authUser : AuthState := ⟨none, some "rt0", none, some "rt0", none⟩

/-- No in-memory token, durable refresh token present. -/
def authRestore : AuthState := ⟨none, none, none, some "rt0", none⟩

/-- No tokens at all (anonymous mode). -/
def authAnon : AuthState := ⟨none, none, none, none, none⟩

/-- User-mode state whose access token expires within five minutes of 0. -/
def authExpiring : AuthState :=
  ⟨some "tok", some "rt0", some 100000, some "rt0", none⟩

/-- Anonymous-mode state whose access token expires within five minutes. -/
def authExpiringAnon : AuthState := ⟨some "tok", none, some 100000, none, none⟩

/-- State whose access token is still valid for well over five minutes. -/
def authFresh : AuthState := ⟨some "tok", none, some 10000000, none, none⟩

/-- State with a pending PKCE verifier in the ephemeral slot. -/
def authPending : AuthState := ⟨none, none, none, none, some "ver1"⟩

/-! ## Permutation facts about the Fisher-Yates shuffle -/

theorem cons_set_perm {α : Type} (x b : α) :
    ∀ (xs : List α) (m : Nat), xs[m]? = some b →
      List.Perm (b :: xs.set m x) (x :: xs)
  | [], m, h => by simp at h
  | y :: t, 0, h => by
    simp only [List.getElem?_cons_zero, Option.some.injEq] at h
    subst h
    exact List.Perm.swap x y t
  | y :: t, m + 1, h => by
    have ih := cons_set_perm x b t m (by simpa using h)
    have s1 : List.Perm (b :: y :: t.set m x) (y :: b :: t.set m x) :=
      List.Perm.swap y b _
    have s2 : List.Perm (y :: b :: t.set m x) (y :: x :: t) := ih.cons y
    have s3 : List.Perm (y :: x :: t) (x :: y :: t) := List.Perm.swap x y t
    exact s1.trans (s2.trans s3)

theorem set_set_perm {α : Type} :
    ∀ (l : List α) (i j : Nat) (a b : α), l[i]? = some a → l[j]? = some b →
      List.Perm ((l.set i b).set j a) l
  | [], _, _, _, _, h1, _ => by simp at h1
  | x :: t, 0, 0, a, b, h1, h2 => by
    simp only [List.getElem?_cons_zero, Option.some.injEq] at h1 h2
    subst h1
    simp
  | x :: t, 0, j + 1, a, b, h1, h2 => by
    simp only [List.getElem?_cons_zero, Option.some.injEq] at h1
    subst h1
    exact cons_set_perm x b t j (by simpa using h2)
  | x :: t, i + 1, 0, a, b, h1, h2 => by
    simp only [List.getElem?_cons_zero, Option.some.injEq] at h2
    subst h2
    exact cons_set_perm x a t i (by simpa using h1)
  | x :: t, i + 1, j + 1, a, b, h1, h2 => by
    have ih := set_set_perm t i j a b (by simpa using h1) (by simpa using h2)
    exact ih.cons x

theorem swapL_perm {α : Type} (l : List α) (i j : Nat) :
    List.Perm (swapL l i j) l := by
  unfold swapL
  split
  · next a b h1 h2 => exact set_set_perm l i j a b h1 h2
  · exact List.Perm.refl l

theorem shuffleAux_perm {α : Type} (rand : Nat → Nat) :
    ∀ (n : Nat) (l : List α), List.Perm (shuffleAux rand n l) l
  | 0, _ => List.Perm.refl _
  | n + 1, l =>
    (shuffleAux_perm rand n _).trans (swapL_perm l (n + 1) (rand (n + 1) % (n + 2)))

theorem shuffleArray_perm {α : Type} (rand : Nat → Nat) (l : List α) :
    List.Perm (shuffleArray rand l) l :=
  shuffleAux_perm rand (l.length - 1) l

theorem shuffleArray_length {α : Type} (rand : Nat → Nat) (l : List α) :
    (shuffleArray rand l).length = l.length :=
  (shuffleArray_perm rand l).length_eq

/-! ## Projection lemmas for the engine operations -/

@[simp] theorem showCurrentArtist_remainingTime (rand : Nat → Nat) (now : Int)
    (s : GameState) : (showCurrentArtist rand now s).remainingTime = s.remainingTime := by
  unfold showCurrentArtist; split <;> rfl

@[simp] theorem showCurrentArtist_timerActive (rand : Nat → Nat) (now : Int)
    (s : GameState) : (showCurrentArtist rand now s).timerActive = s.timerActive := by
  unfold showCurrentArtist; split <;> rfl

@[simp] theorem showCurrentArtist_phase (rand : Nat → Nat) (now : Int)
    (s : GameState) : (showCurrentArtist rand now s).phase = s.phase := by
  unfold showCurrentArtist; split <;> rfl

@[simp] theorem showCurrentArtist_scores (rand : Nat → Nat) (now : Int)
    (s : GameState) : (showCurrentArtist rand now s).scores = s.scores := by
  unfold showCurrentArtist; split <;> rfl

@[simp] theorem showCurrentArtist_playerStats (rand : Nat → Nat) (now : Int)
    (s : GameState) : (showCurrentArtist rand now s).playerStats = s.playerStats := by
  unfold showCurrentArtist; split <;> rfl

@[simp] theorem showCurrentArtist_endRoundCount (rand : Nat → Nat) (now : Int)
    (s : GameState) : (showCurrentArtist rand now s).endRoundCount = s.endRoundCount := by
  unfold showCurrentArtist; split <;> rfl

@[simp] theorem showCurrentArtist_currentTeamIndex (rand : Nat → Nat) (now : Int)
    (s : GameState) :
    (showCurrentArtist rand now s).currentTeamIndex = s.currentTeamIndex := by
  unfold showCurrentArtist; split <;> rfl

@[simp] theorem showCurrentArtist_currentPlayerIndex (rand : Nat → Nat) (now : Int)
    (s : GameState) :
    (showCurrentArtist rand now s).currentPlayerIndex = s.currentPlayerIndex := by
  unfold showCurrentArtist; split <;> rfl

@[simp] theorem showTeamDone_timerActive (cfg : GameConfig) (s : GameState) :
    (showTeamDone cfg s).timerActive = s.timerActive := by
  unfold showTeamDone; split <;> rfl

@[simp] theorem showTeamDone_remainingTime (cfg : GameConfig) (s : GameState) :
    (showTeamDone cfg s).remainingTime = s.remainingTime := by
  unfold showTeamDone; split <;> rfl

@[simp] theorem showTeamDone_endRoundCount (cfg : GameConfig) (s : GameState) :
    (showTeamDone cfg s).endRoundCount = s.endRoundCount := by
  unfold showTeamDone; split <;> rfl

@[simp] theorem showTeamDone_scores (cfg : GameConfig) (s : GameState) :
    (showTeamDone cfg s).scores = s.scores := by
  unfold showTeamDone; split <;> rfl

@[simp] theorem showTeamDone_playerStats (cfg : GameConfig) (s : GameState) :
    (showTeamDone cfg s).playerStats = s.playerStats := by
  unfold showTeamDone; split <;> rfl

@[simp] theorem showTeamDone_artists (cfg : GameConfig) (s : GameState) :
    (showTeamDone cfg s).artists = s.artists := by
  unfold showTeamDone; split <;> rfl

@[simp] theorem showTeamDone_currentArtistIndex (cfg : GameConfig) (s : GameState) :
    (showTeamDone cfg s).currentArtistIndex = s.currentArtistIndex := by
  unfold showTeamDone; split <;> rfl

theorem showTeamDone_phase (cfg : GameConfig) (s : GameState) :
    (showTeamDone cfg s).phase = .teamDone ∨ (showTeamDone cfg s).phase = .gameOver := by
  unfold showTeamDone
  split
  · left; rfl
  · right; rfl

theorem showTeamDone_teamIdx_lt (cfg : GameConfig) (s : GameState)
    (h : s.currentTeamIndex < cfg.teams.length) :
    (showTeamDone cfg s).currentTeamIndex < cfg.teams.length := by
  unfold showTeamDone
  split
  · next hlt => simpa using by omega
  · simpa using h

@[simp] theorem endRound_timerActive (cfg : GameConfig) (s : GameState) :
    (endRound cfg s).timerActive = false := by
  unfold endRound showTeamDone
  dsimp only
  split <;> split <;> rfl

@[simp] theorem endRound_remainingTime (cfg : GameConfig) (s : GameState) :
    (endRound cfg s).remainingTime = s.remainingTime := by
  unfold endRound showTeamDone
  dsimp only
  split <;> split <;> rfl

@[simp] theorem endRound_endRoundCount (cfg : GameConfig) (s : GameState) :
    (endRound cfg s).endRoundCount = s.endRoundCount + 1 := by
  unfold endRound showTeamDone
  dsimp only
  split <;> split <;> rfl

@[simp] theorem endRound_scores (cfg : GameConfig) (s : GameState) :
    (endRound cfg s).scores = s.scores := by
  unfold endRound showTeamDone
  dsimp only
  split <;> split <;> rfl

@[simp] theorem endRound_playerStats (cfg : GameConfig) (s : GameState) :
    (endRound cfg s).playerStats = s.playerStats := by
  unfold endRound showTeamDone
  dsimp only
  split <;> split <;> rfl

@[simp] theorem endRound_artists (cfg : GameConfig) (s : GameState) :
    (endRound cfg s).artists = s.artists := by
  unfold endRound showTeamDone
  dsimp only
  split <;> split <;> rfl

@[simp] theorem endRound_currentArtistIndex (cfg : GameConfig) (s : GameState) :
    (endRound cfg s).currentArtistIndex = s.currentArtistIndex + 1 := by
  unfold endRound showTeamDone
  dsimp only
  split <;> split <;> rfl

theorem endRound_teamIdx_lt (cfg : GameConfig) (s : GameState)
    (h : s.currentTeamIndex < cfg.teams.length) :
    (endRound cfg s).currentTeamIndex < cfg.teams.length := by
  unfold endRound
  dsimp only
  split
  · exact showTeamDone_teamIdx_lt cfg _ (by simpa using h)
  · split <;> simpa using h

/-- One tick while the timer runs and time remains: pure decrement. -/
theorem timerTick_run (cfg : GameConfig) (s : GameState)
    (ht : s.timerActive = true) (h : ¬ s.remainingTime - 1 ≤ 0) :
    timerTick cfg s = { s with remainingTime := s.remainingTime - 1 } := by
  simp [timerTick, ht, h]

/-- The tick on which the countdown hits zero fires `endRound` once. -/
theorem timerTick_fire (cfg : GameConfig) (s : GameState)
    (ht : s.timerActive = true) (h : s.remainingTime - 1 ≤ 0) :
    timerTick cfg s = endRound cfg { s with remainingTime := s.remainingTime - 1 } := by
  simp [timerTick, ht, h]

/-- A cleared interval never fires: the tick is the identity. -/
theorem timerTick_inactive (cfg : GameConfig) (s : GameState)
    (ht : s.timerActive = false) : timerTick cfg s = s := by
  simp [timerTick, ht]

@[simp] theorem startRound_scores (cfg : GameConfig) (rand : Nat → Nat)
    (now : Int) (s : GameState) : (startRound cfg rand now s).scores = s.scores := by
  simp [startRound]

@[simp] theorem startRound_currentTeamIndex (cfg : GameConfig) (rand : Nat → Nat)
    (now : Int) (s : GameState) :
    (startRound cfg rand now s).currentTeamIndex = s.currentTeamIndex := by
  simp [startRound]

theorem startRound_playerStats (cfg : GameConfig) (rand : Nat → Nat)
    (now : Int) (s : GameState) :
    (startRound cfg rand now s).playerStats =
      updStats (activePlayerId cfg s)
        (fun st => { st with currentStreak := 0, currentStreakArtists := [] })
        s.playerStats := by
  simp [startRound]

@[simp] theorem handlePass_scores (cfg : GameConfig) (rand : Nat → Nat)
    (now : Int) (s : GameState) : (handlePass cfg rand now s).scores = s.scores := by
  simp [handlePass]

@[simp] theorem handlePass_currentTeamIndex (cfg : GameConfig) (rand : Nat → Nat)
    (now : Int) (s : GameState) :
    (handlePass cfg rand now s).currentTeamIndex = s.currentTeamIndex := by
  simp [handlePass]

theorem handlePass_playerStats (cfg : GameConfig) (rand : Nat → Nat)
    (now : Int) (s : GameState) :
    (handlePass cfg rand now s).playerStats =
      updStats (activePlayerId cfg s)
        (fun st => { st with passed := st.passed + 1, currentStreak := 0,
                             currentStreakArtists := [] })
        s.playerStats := by
  simp [handlePass]

theorem handleCorrect_scores (cfg : GameConfig) (rand : Nat → Nat)
    (now : Int) (s : GameState) :
    (handleCorrect cfg rand now s).scores = fun tid =>
      if tid = (activeTeam cfg s).id then s.scores tid + 1 else s.scores tid := by
  simp [handleCorrect]

@[simp] theorem handleCorrect_currentTeamIndex (cfg : GameConfig) (rand : Nat → Nat)
    (now : Int) (s : GameState) :
    (handleCorrect cfg rand now s).currentTeamIndex = s.currentTeamIndex := by
  simp [handleCorrect]

theorem handleCorrect_playerStats (cfg : GameConfig) (rand : Nat → Nat)
    (now : Int) (s : GameState) :
    (handleCorrect cfg rand now s).playerStats =
      updStats (activePlayerId cfg s)
        (fun st => recordGuess (((now - s.currentArtistStartTime : Int) : ℚ) / 1000)
          (s.artists.getD s.currentArtistIndex noArtist)
          (trackFastest (((now - s.currentArtistStartTime : Int) : ℚ) / 1000)
            (s.artists.getD s.currentArtistIndex noArtist)
            (bumpStreak (s.artists.getD s.currentArtistIndex noArtist) st)))
        s.playerStats := by
  simp [handleCorrect]

@[simp] theorem timerTick_scores (cfg : GameConfig) (s : GameState) :
    (timerTick cfg s).scores = s.scores := by
  unfold timerTick
  dsimp only
  split
  · split
    · rw [endRound_scores]
    · rfl
  · rfl

@[simp] theorem timerTick_playerStats (cfg : GameConfig) (s : GameState) :
    (timerTick cfg s).playerStats = s.playerStats := by
  unfold timerTick
  dsimp only
  split
  · split
    · rw [endRound_playerStats]
    · rfl
  · rfl

theorem timerTick_teamIdx_lt (cfg : GameConfig) (s : GameState)
    (h : s.currentTeamIndex < cfg.teams.length) :
    (timerTick cfg s).currentTeamIndex < cfg.teams.length := by
  unfold timerTick
  dsimp only
  split
  · split
    · exact endRound_teamIdx_lt cfg _ (by simpa using h)
    · simpa using h
  · exact h

/-! ## Lemmas about the streak helpers -/

@[simp] theorem recordGuess_currentStreak (gt : ℚ) (a : Artist) (st : PlayerStats) :
    (recordGuess gt a st).currentStreak = st.currentStreak := rfl

@[simp] theorem recordGuess_bestStreak (gt : ℚ) (a : Artist) (st : PlayerStats) :
    (recordGuess gt a st).bestStreak = st.bestStreak := rfl

@[simp] theorem recordGuess_bestStreakArtists (gt : ℚ) (a : Artist) (st : PlayerStats) :
    (recordGuess gt a st).bestStreakArtists = st.bestStreakArtists := rfl

@[simp] theorem trackFastest_currentStreak (gt : ℚ) (a : Artist) (st : PlayerStats) :
    (trackFastest gt a st).currentStreak = st.currentStreak := by
  unfold trackFastest
  split
  · rfl
  · split <;> rfl

@[simp] theorem trackFastest_bestStreak (gt : ℚ) (a : Artist) (st : PlayerStats) :
    (trackFastest gt a st).bestStreak = st.bestStreak := by
  unfold trackFastest
  split
  · rfl
  · split <;> rfl

@[simp] theorem trackFastest_bestStreakArtists (gt : ℚ) (a : Artist) (st : PlayerStats) :
    (trackFastest gt a st).bestStreakArtists = st.bestStreakArtists := by
  unfold trackFastest
  split
  · rfl
  · split <;> rfl

theorem bumpStreak_currentStreak (a : Artist) (st : PlayerStats) :
    (bumpStreak a st).currentStreak = st.currentStreak + 1 := by
  unfold bumpStreak
  dsimp only
  split <;> rfl

/-- After `bumpStreak` the invariant holds unconditionally: either the best
streak was just promoted to the current one, or it already exceeded it. -/
theorem bumpStreak_inv (a : Artist) (st : PlayerStats) :
    (bumpStreak a st).currentStreak ≤ (bumpStreak a st).bestStreak := by
  unfold bumpStreak
  dsimp only
  split
  · exact Nat.le_refl _
  · next h => exact Nat.le_of_not_lt (by simpa using h)

theorem bumpStreak_best_pos (a : Artist) (st : PlayerStats)
    (h : st.bestStreak < st.currentStreak + 1) :
    (bumpStreak a st).bestStreak = st.currentStreak + 1 ∧
    (bumpStreak a st).bestStreakArtists = st.currentStreakArtists ++ [a] := by
  unfold bumpStreak
  dsimp only
  rw [if_pos h]
  exact ⟨rfl, rfl⟩

theorem bumpStreak_best_neg (a : Artist) (st : PlayerStats)
    (h : ¬ st.bestStreak < st.currentStreak + 1) :
    (bumpStreak a st).bestStreak = st.bestStreak ∧
    (bumpStreak a st).bestStreakArtists = st.bestStreakArtists := by
  unfold bumpStreak
  dsimp only
  rw [if_neg h]
  exact ⟨rfl, rfl⟩

/-! ## Trace-level lemmas -/

theorem applyEvent_teamIdx (cfg : GameConfig) (s : GameState) (e : GameEvent)
    (h : s.currentTeamIndex < cfg.teams.length) :
    (applyEvent cfg s e).currentTeamIndex < cfg.teams.length := by
  cases e with
  | go rand now =>
    show (startRound cfg rand now s).currentTeamIndex < cfg.teams.length
    simpa using h
  | correct rand now =>
    show (handleCorrect cfg rand now s).currentTeamIndex < cfg.teams.length
    simpa using h
  | pass rand now =>
    show (handlePass cfg rand now s).currentTeamIndex < cfg.teams.length
    simpa using h
  | tick => exact timerTick_teamIdx_lt cfg s h
  | teamDone => exact showTeamDone_teamIdx_lt cfg s h

theorem sum_map_update (f : String → Nat) (t : Team) :
    ∀ (ts : List Team), t ∈ ts → (ts.map Team.id).Nodup →
      (ts.map (fun u => if u.id = t.id then f u.id + 1 else f u.id)).sum
        = (ts.map (fun u => f u.id)).sum + 1
  | [], hmem, _ => absurd hmem (List.not_mem_nil t)
  | u :: ts, hmem, hnd => by
    have hnotin : u.id ∉ ts.map Team.id := (List.nodup_cons.mp hnd).1
    rcases List.mem_cons.mp hmem with rfl | hmem'
    · have hts : ts.map (fun v => if v.id = t.id then f v.id + 1 else f v.id)
          = ts.map (fun v => f v.id) := by
        apply List.map_congr_left
        intro v hv
        have hne : v.id ≠ t.id := by
          intro he
          exact hnotin (he ▸ List.mem_map_of_mem Team.id hv)
        simp [hne]
      rw [List.map_cons, List.map_cons, List.sum_cons, List.sum_cons, hts,
          if_pos rfl]
      omega
    · have hne : u.id ≠ t.id := by
        intro he
        exact hnotin (he ▸ List.mem_map_of_mem Team.id hmem')
      have ih := sum_map_update f t ts hmem' (List.nodup_cons.mp hnd).2
      rw [List.map_cons, List.map_cons, List.sum_cons, List.sum_cons, ih,
          if_neg hne]
      omega

theorem activeTeam_mem (cfg : GameConfig) (s : GameState)
    (h : s.currentTeamIndex < cfg.teams.length) : activeTeam cfg s ∈ cfg.teams := by
  unfold activeTeam
  rw [List.getD_eq_getElem cfg.teams noTeam h]
  exact List.getElem_mem h

theorem applyEvent_scoreSum (cfg : GameConfig)
    (hnd : (cfg.teams.map Team.id).Nodup) (s : GameState) (e : GameEvent)
    (h : s.currentTeamIndex < cfg.teams.length) :
    scoreSum cfg (applyEvent cfg s e) = scoreSum cfg s + countCorrect [e] := by
  cases e with
  | go rand now => simp [applyEvent, scoreSum, countCorrect]
  | correct rand now =>
    show scoreSum cfg (handleCorrect cfg rand now s) = scoreSum cfg s + countCorrect [.correct rand now]
    unfold scoreSum
    rw [handleCorrect_scores]
    exact sum_map_update s.scores (activeTeam cfg s) cfg.teams
      (activeTeam_mem cfg s h) hnd
  | pass rand now => simp [applyEvent, scoreSum, countCorrect]
  | tick => simp [applyEvent, scoreSum, countCorrect]
  | teamDone => simp [applyEvent, scoreSum, countCorrect]

theorem applyEvents_scoreSum (cfg : GameConfig)
    (hnd : (cfg.teams.map Team.id).Nodup) :
    ∀ (evts : List GameEvent) (s : GameState),
      s.currentTeamIndex < cfg.teams.length →
      scoreSum cfg (applyEvents cfg evts s) = scoreSum cfg s + countCorrect evts
  | [], s, _ => by simp [applyEvents, countCorrect]
  | e :: es, s, h => by
    have hstep := applyEvent_scoreSum cfg hnd s e h
    have hidx := applyEvent_teamIdx cfg s e h
    have ih := applyEvents_scoreSum cfg hnd es (applyEvent cfg s e) hidx
    show scoreSum cfg (applyEvents cfg es (applyEvent cfg s e)) = _
    rw [ih, hstep]
    cases e <;> (simp [countCorrect]; try omega)

theorem applyEvent_streakInv (cfg : GameConfig) (s : GameState) (e : GameEvent)
    (h : streakInv s) : streakInv (applyEvent cfg s e) := by
  cases e with
  | go rand now =>
    intro p
    show ((startRound cfg rand now s).playerStats p).currentStreak ≤
      ((startRound cfg rand now s).playerStats p).bestStreak
    rw [startRound_playerStats]
    unfold updStats
    split
    · simp
    · exact h p
  | correct rand now =>
    intro p
    show ((handleCorrect cfg rand now s).playerStats p).currentStreak ≤
      ((handleCorrect cfg rand now s).playerStats p).bestStreak
    rw [handleCorrect_playerStats]
    unfold updStats
    split
    · simpa using bumpStreak_inv _ _
    · exact h p
  | pass rand now =>
    intro p
    show ((handlePass cfg rand now s).playerStats p).currentStreak ≤
      ((handlePass cfg rand now s).playerStats p).bestStreak
    rw [handlePass_playerStats]
    unfold updStats
    split
    · simp
    · exact h p
  | tick =>
    intro p
    show ((timerTick cfg s).playerStats p).currentStreak ≤
      ((timerTick cfg s).playerStats p).bestStreak
    rw [timerTick_playerStats]
    exact h p
  | teamDone =>
    intro p
    show ((showTeamDone cfg s).playerStats p).currentStreak ≤
      ((showTeamDone cfg s).playerStats p).bestStreak
    rw [showTeamDone_playerStats]
    exact h p

theorem applyEvents_streakInv (cfg : GameConfig) :
    ∀ (evts : List GameEvent) (s : GameState),
      streakInv s → streakInv (applyEvents cfg evts s)
  | [], _, h => h
  | e :: es, s, h =>
    applyEvents_streakInv cfg es _ (applyEvent_streakInv cfg s e h)

/-! ## Claim C1 -/

/-- C1: `ensureAuthenticated` follows the spec's behaviour table: with no
in-memory access token it refreshes from a durable refresh token when one
exists and otherwise acquires an anonymous client-credentials token; with
an in-memory token expiring within five minutes it refreshes in user mode
and re-acquires anonymously in anonymous mode; with a token not expiring
within five minutes it performs no network action and leaves the state
unchanged. -/
theorem ensureAuthenticated_behavior (now : Int) (refreshResps : List HttpResp)
    (ccResp : Option HttpResp) (s : AuthState) :
    (∀ rt, s.accessToken = none → s.lsRefreshToken = some rt →
      ensureAuthenticated now refreshResps ccResp s =
        ((refreshAccessToken now { s with refreshToken := some rt } 0 refreshResps).1,
         .refreshed)) ∧
    (s.accessToken = none → s.lsRefreshToken = none →
      ensureAuthenticated now refreshResps ccResp s =
        ((getClientCredentialsToken now ccResp s).1, .anonymous)) ∧
    (∀ tok, s.accessToken = some tok →
      s.tokenExpiry.getD 0 - 5 * 60 * 1000 ≤ now →
      (isUserAuthenticated s = true →
        ensureAuthenticated now refreshResps ccResp s =
          ((refreshAccessToken now s 0 refreshResps).1, .refreshed)) ∧
      (isUserAuthenticated s = false →
        ensureAuthenticated now refreshResps ccResp s =
          ((getClientCredentialsToken now ccResp s).1, .anonymous))) ∧
    (∀ tok, s.accessToken = some tok →
      now < s.tokenExpiry.getD 0 - 5 * 60 * 1000 →
      ensureAuthenticated now refreshResps ccResp s = (s, .noop)) := by
  refine ⟨?_, ?_, ?_, ?_⟩
  · intro rt h1 h2
    simp [ensureAuthenticated, h1, h2]
  · intro h1 h2
    simp [ensureAuthenticated, h1, h2]
  · intro tok h1 h2
    constructor
    · intro hu
      simp [ensureAuthenticated, h1, hu]
      omega
    · intro hu
      simp [ensureAuthenticated, h1, hu]
      omega
  · intro tok h1 h2
    have hn : ¬ s.tokenExpiry.getD 0 ≤ now + 300000 := by omega
    simp [ensureAuthenticated, h1, hn]

/-- Witness for C1: each row of the behaviour table applied to a concrete
state at time 0. -/
theorem ensureAuthenticated_behavior_witness :
    ensureAuthenticated 0 [.ok "t2" none 3600] none authRestore =
      ((refreshAccessToken 0 { authRestore with refreshToken := some "rt0" } 0
         [.ok "t2" none 3600]).1, .refreshed) ∧
    ensureAuthenticated 0 [] (some (.ok "t3" none 3600)) authAnon =
      ((getClientCredentialsToken 0 (some (.ok "t3" none 3600)) authAnon).1,
       .anonymous) ∧
    ensureAuthenticated 0 [.ok "t4" none 3600] none authExpiring =
      ((refreshAccessToken 0 authExpiring 0 [.ok "t4" none 3600]).1, .refreshed) ∧
    ensureAuthenticated 0 [] (some (.ok "t5" none 3600)) authExpiringAnon =
      ((getClientCredentialsToken 0 (some (.ok "t5" none 3600)) authExpiringAnon).1,
       .anonymous) ∧
    ensureAuthenticated 0 [] none authFresh = (authFresh, .noop) :=
  ⟨(ensureAuthenticated_behavior 0 [.ok "t2" none 3600] none authRestore).1
     "rt0" rfl rfl,
   (ensureAuthenticated_behavior 0 [] (some (.ok "t3" none 3600)) authAnon).2.1
     rfl rfl,
   ((ensureAuthenticated_behavior 0 [.ok "t4" none 3600] none authExpiring).2.2.1
     "tok" rfl (by decide)).1 rfl,
   ((ensureAuthenticated_behavior 0 []
       (some (.ok "t5" none 3600)) authExpiringAnon).2.2.1
     "tok" rfl (by decide)).2 rfl,
   (ensureAuthenticated_behavior 0 [] none authFresh).2.2.2
     "tok" rfl (by decide)⟩

/-! ## Claim C3 -/

/-- C3: a 4xx refresh response clears every stored credential (in-memory
access and refresh tokens and the durable slot) and fails; 5xx responses
are retried with exponential backoff 1s, 2s, 4s — capped at three retry
attempts — and never clear any stored credential. -/
theorem refreshAccessToken_client_server_errors (now : Int) (s : AuthState)
    (hrt : (s.refreshToken.orElse fun _ => s.lsRefreshToken).isSome = true) :
    (∀ status rest, 400 ≤ status → status < 500 →
      refreshAccessToken now s 0 (.err status :: rest) = (logout s, .failure, []) ∧
      (logout s).accessToken = none ∧ (logout s).refreshToken = none ∧
      (logout s).lsRefreshToken = none) ∧
    (∀ resps : List HttpResp, 4 ≤ resps.length → (∀ r ∈ resps, is5xx r = true) →
      (refreshAccessToken now s 0 resps).1 = s ∧
      (refreshAccessToken now s 0 resps).2.1 = .failure ∧
      (refreshAccessToken now s 0 resps).2.2 = [1000, 2000, 4000]) := by
  obtain ⟨rt, hrt⟩ := Option.isSome_iff_exists.mp hrt
  constructor
  · intro status rest h4 h5
    have hno : ¬(500 ≤ status ∧ 0 < 3) := by omega
    refine ⟨?_, rfl, rfl, rfl⟩
    simp [refreshAccessToken, hrt, hno, h5]
  · intro resps hlen hall
    match resps with
    | [] => simp at hlen
    | [_] => simp at hlen
    | [_, _] => simp at hlen
    | [_, _, _] => simp at hlen
    | r0 :: r1 :: r2 :: r3 :: rest =>
      have e0 : ∃ st, r0 = .err st ∧ 500 ≤ st := by
        have := hall r0 (by simp)
        cases r0 with
        | ok a b c => simp [is5xx] at this
        | err st => exact ⟨st, rfl, by simpa [is5xx] using this⟩
      have e1 : ∃ st, r1 = .err st ∧ 500 ≤ st := by
        have := hall r1 (by simp)
        cases r1 with
        | ok a b c => simp [is5xx] at this
        | err st => exact ⟨st, rfl, by simpa [is5xx] using this⟩
      have e2 : ∃ st, r2 = .err st ∧ 500 ≤ st := by
        have := hall r2 (by simp)
        cases r2 with
        | ok a b c => simp [is5xx] at this
        | err st => exact ⟨st, rfl, by simpa [is5xx] using this⟩
      have e3 : ∃ st, r3 = .err st ∧ 500 ≤ st := by
        have := hall r3 (by simp)
        cases r3 with
        | ok a b c => simp [is5xx] at this
        | err st => exact ⟨st, rfl, by simpa [is5xx] using this⟩
      obtain ⟨st0, rfl, hs0⟩ := e0
      obtain ⟨st1, rfl, hs1⟩ := e1
      obtain ⟨st2, rfl, hs2⟩ := e2
      obtain ⟨st3, rfl, hs3⟩ := e3
      have c0 : 500 ≤ st0 ∧ 0 < 3 := ⟨hs0, by omega⟩
      have c1 : 500 ≤ st1 ∧ 1 < 3 := ⟨hs1, by omega⟩
      have c2 : 500 ≤ st2 ∧ 2 < 3 := ⟨hs2, by omega⟩
      have c3 : ¬(500 ≤ st3 ∧ 3 < 3) := by omega
      have hnl : ¬ st3 < 500 := by omega
      refine ⟨?_, ?_, ?_⟩ <;>
        simp [refreshAccessToken, hrt, c0, c1, c2, c3, hnl]

/-- Witness for C3: a concrete 4xx failure logging the user out, and four
concrete 5xx responses exhausting the retry budget with delays 1s, 2s, 4s
while leaving the state untouched. -/
theorem refreshAccessToken_errors_witness :
    refreshAccessToken 0 authUser 0 [.err 400] = (logout authUser, .failure, []) ∧
    (refreshAccessToken 0 authUser 0 [.err 500, .err 503, .err 502, .err 500]).1 =
      authUser ∧
    (refreshAccessToken 0 authUser 0 [.err 500, .err 503, .err 502, .err 500]).2.2 =
      [1000, 2000, 4000] :=
  ⟨((refreshAccessToken_client_server_errors 0 authUser rfl).1 400 []
      (by decide) (by decide)).1,
   ((refreshAccessToken_client_server_errors 0 authUser rfl).2
      [.err 500, .err 503, .err 502, .err 500] (by decide) (by decide)).1,
   ((refreshAccessToken_client_server_errors 0 authUser rfl).2
      [.err 500, .err 503, .err 502, .err 500] (by decide) (by decide)).2.2⟩

/-! ## Claim C2 -/

/-- C2: starting from a running round with `d > 0` seconds left, each tick
decrements the remaining time by exactly one; on the `d`-th tick the
remaining time reaches exactly 0 and the end-of-round transition fires
exactly once (ghost counter `endRoundCount` goes up by one), cancelling the
recurring timer, and every later tick leaves the state completely
unchanged — no further decrements and no duplicate end-of-round events. -/
theorem countdown_reaches_zero_ends_once (cfg : GameConfig) (s : GameState)
    (d : Nat) (hd : 0 < d) (hr : s.remainingTime = (d : Int))
    (ht : s.timerActive = true) :
    (∀ k, k < d → ((timerTick cfg)^[k] s).remainingTime = (d : Int) - k ∧
      ((timerTick cfg)^[k] s).timerActive = true ∧
      ((timerTick cfg)^[k] s).endRoundCount = s.endRoundCount) ∧
    ((timerTick cfg)^[d] s).remainingTime = 0 ∧
    ((timerTick cfg)^[d] s).timerActive = false ∧
    ((timerTick cfg)^[d] s).endRoundCount = s.endRoundCount + 1 ∧
    ∀ m, (timerTick cfg)^[d + m] s = (timerTick cfg)^[d] s := by
  have key : ∀ k, k < d →
      (timerTick cfg)^[k] s = { s with remainingTime := (d : Int) - k } := by
    intro k
    induction k with
    | zero =>
      intro _
      simp only [Function.iterate_zero_apply, Nat.cast_zero, sub_zero, ← hr]
    | succ k ih =>
      intro hk
      have hki : ((k : Int) + 1) < (d : Int) := by exact_mod_cast hk
      have hpos : ¬ ((d : Int) - (k : Int) - 1 ≤ 0) := by omega
      rw [Function.iterate_succ_apply', ih (by omega),
          timerTick_run cfg _ (by simpa using ht) hpos]
      show ({ s with remainingTime := (d : Int) - (k : Int) - 1 } : GameState) = _
      have heq : (d : Int) - (k : Int) - 1 = (d : Int) - ((k + 1 : Nat) : Int) := by
        push_cast; ring
      rw [heq]
  have fire : (timerTick cfg)^[d] s = endRound cfg { s with remainingTime := 0 } := by
    obtain ⟨e, rfl⟩ : ∃ e, d = e + 1 := ⟨d - 1, by omega⟩
    have hle : (((e + 1 : Nat) : Int) - (e : Int)) - 1 ≤ 0 := by push_cast; omega
    rw [Function.iterate_succ_apply', key e (by omega),
        timerTick_fire cfg _ (by simpa using ht) hle]
    congr 1
    show ({ s with remainingTime := ((e + 1 : Nat) : Int) - (e : Int) - 1 } : GameState) = _
    have heq : ((e + 1 : Nat) : Int) - (e : Int) - 1 = 0 := by push_cast; ring
    rw [heq]
  refine ⟨fun k hk => ?_, ?_, ?_, ?_, fun m => ?_⟩
  · rw [key k hk]
    exact ⟨rfl, by simpa using ht, rfl⟩
  · rw [fire]; simp
  · rw [fire]; simp
  · rw [fire]; simp
  · induction m with
    | zero => rfl
    | succ m ihm =>
      have hsum : d + (m + 1) = (d + m) + 1 := by omega
      rw [hsum, Function.iterate_succ_apply', ihm]
      exact timerTick_inactive cfg _ (by rw [fire]; simp)

/-- Witness for C2: a concrete 10-second round of `cfgW`; ten ticks reach
0 and fire the end transition once, and five extra ticks change nothing. -/
theorem countdown_witness :
    ((timerTick cfgW)^[10] sW).remainingTime = 0 ∧
    ((timerTick cfgW)^[10] sW).timerActive = false ∧
    ((timerTick cfgW)^[10] sW).endRoundCount = sW.endRoundCount + 1 ∧
    (timerTick cfgW)^[10 + 5] sW = (timerTick cfgW)^[10] sW := by
  have h := countdown_reaches_zero_ends_once cfgW sW 10 (by norm_num) rfl rfl
  exact ⟨h.2.1, h.2.2.1, h.2.2.2.1, h.2.2.2.2 5⟩

/-! ## Claim C4 -/

/-- C4: in swap-places mode a round starts with
`playerDuration × teamMemberCount` remaining seconds (one uninterrupted
team turn) and `endRound` bypasses the per-member round summary, going
directly into the team-done flow (whose phase is team-done — or game-over
after the last team — never round-done); in individual mode a round starts
with `playerDuration` unmodified. -/
theorem round_duration_by_mode (cfg : GameConfig) (rand : Nat → Nat)
    (now : Int) (s : GameState) :
    (cfg.gameMode = .swapPlaces →
      (startRound cfg rand now s).remainingTime =
        ((cfg.playerDuration * (activeTeam cfg s).members.length : Nat) : Int) ∧
      endRound cfg s = showTeamDone cfg
        { s with timerActive := false, endRoundCount := s.endRoundCount + 1,
                 currentArtistIndex := s.currentArtistIndex + 1 } ∧
      (endRound cfg s).phase ≠ .roundDone) ∧
    (cfg.gameMode = .individual →
      (startRound cfg rand now s).remainingTime = (cfg.playerDuration : Int)) := by
  constructor
  · intro h
    have heq : endRound cfg s = showTeamDone cfg
        { s with timerActive := false, endRoundCount := s.endRoundCount + 1,
                 currentArtistIndex := s.currentArtistIndex + 1 } := by
      simp [endRound, h]
    refine ⟨by simp [startRound, h], heq, ?_⟩
    rw [heq]
    rcases showTeamDone_phase cfg
        { s with timerActive := false, endRoundCount := s.endRoundCount + 1,
                 currentArtistIndex := s.currentArtistIndex + 1 } with h' | h' <;>
      simp [h']
  · intro h
    simp [startRound, h]

/-- Witness for C4: the spec scenario — swap-places, team of three, 5s per
player — yields a 15-second round and no round-done phase at its end; the
individual-mode configuration starts a 10-second round. -/
theorem round_duration_witness :
    (startRound cfgSW rand0 0 (initialState poolW)).remainingTime = 15 ∧
    (endRound cfgSW sEnd).phase ≠ .roundDone ∧
    (startRound cfgW rand0 0 (initialState poolW)).remainingTime = 10 := by
  have h1 := (round_duration_by_mode cfgSW rand0 0 (initialState poolW)).1 rfl
  have h2 := (round_duration_by_mode cfgSW rand0 0 sEnd).1 rfl
  have h3 := (round_duration_by_mode cfgW rand0 0 (initialState poolW)).2 rfl
  exact ⟨by rw [h1.1]; decide, h2.2.2, by rw [h3]; decide⟩

/-! ## Claim C5 -/

/-- C5: over any event trace from the initial state, the sum of all teams'
scores equals the number of "correct" signals in the trace (so for a
completed game, final scores sum to the total correct count); moreover each
"correct" adds exactly one point to the active team's score — the scoring
code is mode-independent — and a "pass" never changes any score. -/
theorem score_sum_eq_correct_count (cfg : GameConfig) (pool : List Artist)
    (evts : List GameEvent)
    (hnd : (cfg.teams.map Team.id).Nodup) (hne : cfg.teams ≠ []) :
    scoreSum cfg (applyEvents cfg evts (initialState pool)) = countCorrect evts ∧
    (∀ rand now s, (handleCorrect cfg rand now s).scores (activeTeam cfg s).id
        = s.scores (activeTeam cfg s).id + 1) ∧
    (∀ rand now s, (handlePass cfg rand now s).scores = s.scores) := by
  refine ⟨?_, ?_, ?_⟩
  · have h0 : (initialState pool).currentTeamIndex < cfg.teams.length := by
      have := List.length_pos_of_ne_nil hne
      simpa [initialState] using this
    have hmain := applyEvents_scoreSum cfg hnd evts (initialState pool) h0
    have hz : scoreSum cfg (initialState pool) = 0 := by
      apply List.sum_eq_zero
      intro x hx
      rcases List.mem_map.mp hx with ⟨t, _, rfl⟩
      rfl
    rw [hmain, hz, Nat.zero_add]
  · intro rand now s
    rw [handleCorrect_scores]
    simp
  · intro rand now s
    exact handlePass_scores cfg rand now s

/-- Witness for C5: a concrete four-event trace with two corrects
accumulating a total score of 2 across `cfgW`'s two teams. -/
theorem score_sum_witness :
    scoreSum cfgW (applyEvents cfgW
      [.go rand0 0, .correct rand0 1000, .pass rand0 2000, .correct rand0 3000]
      (initialState poolW)) = 2 := by
  have h := (score_sum_eq_correct_count cfgW poolW
      [.go rand0 0, .correct rand0 1000, .pass rand0 2000, .correct rand0 3000]
      (by decide) (by decide)).1
  rw [h]
  rfl

/-! ## Claim C6 -/

/-- C6: after any event trace from the initial state,
`bestStreak ≥ currentStreak` holds for every player; `currentStreak` goes
up by one on each correct guess and resets to 0 on every pass and at every
round start (`bestStreak` and its artist list surviving both, hence
persisting across the player's turns); and `bestStreak` together with its
ordered artist list is rewritten exactly when the new current streak
exceeds the prior best. -/
theorem streak_invariant (cfg : GameConfig) (pool : List Artist)
    (evts : List GameEvent) :
    streakInv (applyEvents cfg evts (initialState pool)) ∧
    (∀ (rand : Nat → Nat) (now : Int) (s : GameState),
      ((handleCorrect cfg rand now s).playerStats (activePlayerId cfg s)).currentStreak
        = (s.playerStats (activePlayerId cfg s)).currentStreak + 1) ∧
    (∀ (rand : Nat → Nat) (now : Int) (s : GameState),
      ((handlePass cfg rand now s).playerStats (activePlayerId cfg s)).currentStreak = 0 ∧
      ((handlePass cfg rand now s).playerStats (activePlayerId cfg s)).bestStreak
        = (s.playerStats (activePlayerId cfg s)).bestStreak ∧
      ((handlePass cfg rand now s).playerStats (activePlayerId cfg s)).bestStreakArtists
        = (s.playerStats (activePlayerId cfg s)).bestStreakArtists) ∧
    (∀ (rand : Nat → Nat) (now : Int) (s : GameState),
      ((startRound cfg rand now s).playerStats (activePlayerId cfg s)).currentStreak = 0 ∧
      ((startRound cfg rand now s).playerStats (activePlayerId cfg s)).bestStreak
        = (s.playerStats (activePlayerId cfg s)).bestStreak) ∧
    (∀ (rand : Nat → Nat) (now : Int) (s : GameState),
      ((s.playerStats (activePlayerId cfg s)).bestStreak
          < (s.playerStats (activePlayerId cfg s)).currentStreak + 1 →
        ((handleCorrect cfg rand now s).playerStats (activePlayerId cfg s)).bestStreak
          = (s.playerStats (activePlayerId cfg s)).currentStreak + 1 ∧
        ((handleCorrect cfg rand now s).playerStats (activePlayerId cfg s)).bestStreakArtists
          = (s.playerStats (activePlayerId cfg s)).currentStreakArtists
              ++ [s.artists.getD s.currentArtistIndex noArtist]) ∧
      (¬ (s.playerStats (activePlayerId cfg s)).bestStreak
          < (s.playerStats (activePlayerId cfg s)).currentStreak + 1 →
        ((handleCorrect cfg rand now s).playerStats (activePlayerId cfg s)).bestStreak
          = (s.playerStats (activePlayerId cfg s)).bestStreak ∧
        ((handleCorrect cfg rand now s).playerStats (activePlayerId cfg s)).bestStreakArtists
          = (s.playerStats (activePlayerId cfg s)).bestStreakArtists)) := by
  refine ⟨?_, ?_, ?_, ?_, ?_⟩
  · apply applyEvents_streakInv
    intro p
    exact Nat.le_refl 0
  · intro rand now s
    rw [handleCorrect_playerStats]
    unfold updStats
    rw [if_pos rfl]
    simp [bumpStreak_currentStreak]
  · intro rand now s
    rw [handlePass_playerStats]
    unfold updStats
    rw [if_pos rfl]
    exact ⟨rfl, rfl, rfl⟩
  · intro rand now s
    rw [startRound_playerStats]
    unfold updStats
    rw [if_pos rfl]
    exact ⟨rfl, rfl⟩
  · intro rand now s
    rw [handleCorrect_playerStats]
    unfold updStats
    rw [if_pos rfl]
    constructor
    · intro hlt
      have hb := bumpStreak_best_pos (s.artists.getD s.currentArtistIndex noArtist)
        (s.playerStats (activePlayerId cfg s)) hlt
      simpa using hb
    · intro hge
      have hb := bumpStreak_best_neg (s.artists.getD s.currentArtistIndex noArtist)
        (s.playerStats (activePlayerId cfg s)) hge
      simpa using hb

/-- Witness for C6: the invariant read off after a concrete trace, and the
streak increment of a concrete correct guess. -/
theorem streak_invariant_witness :
    ((applyEvents cfgW [.go rand0 0, .correct rand0 500, .correct rand0 900]
        (initialState poolW)).playerStats "t1-Alice").currentStreak ≤
      ((applyEvents cfgW [.go rand0 0, .correct rand0 500, .correct rand0 900]
        (initialState poolW)).playerStats "t1-Alice").bestStreak ∧
    ((handleCorrect cfgW rand0 0 sW).playerStats (activePlayerId cfgW sW)).currentStreak
      = (sW.playerStats (activePlayerId cfgW sW)).currentStreak + 1 :=
  ⟨(streak_invariant cfgW poolW
      [.go rand0 0, .correct rand0 500, .correct rand0 900]).1 "t1-Alice",
   (streak_invariant cfgW poolW []).2.1 rand0 0 sW⟩

/-! ## Claim C8 -/

/-- C8: when the artist index has moved past the last pool entry mid-round,
`showCurrentArtist` reshuffles the full pool (the new pool is a permutation
of the old one) and restarts display from index 0; the phase stays Playing,
the timer keeps running, the remaining time is untouched and no
end-of-round transition fires, so the round continues until its timer
expires, allowing repeats within a single round. -/
theorem pool_exhaustion_reshuffles (rand : Nat → Nat) (now : Int)
    (s : GameState) (hp : s.phase = .playing) (ht : s.timerActive = true)
    (hi : s.artists.length ≤ s.currentArtistIndex) :
    (showCurrentArtist rand now s).currentArtistIndex = 0 ∧
    List.Perm (showCurrentArtist rand now s).artists s.artists ∧
    (showCurrentArtist rand now s).phase = .playing ∧
    (showCurrentArtist rand now s).timerActive = true ∧
    (showCurrentArtist rand now s).remainingTime = s.remainingTime ∧
    (showCurrentArtist rand now s).endRoundCount = s.endRoundCount := by
  refine ⟨?_, ?_, by simp [hp], by simp [ht], by simp, by simp⟩
  · simp [showCurrentArtist, hi]
  · simp only [showCurrentArtist, if_pos hi]
    show List.Perm (shuffleArray rand s.artists) s.artists
    exact shuffleArray_perm rand s.artists

/-- Witness for C8: a three-artist pool whose index has run past the end;
display restarts from 0 with a permuted pool, still Playing. -/
theorem pool_exhaustion_witness :
    (showCurrentArtist rand0 0 sPast).currentArtistIndex = 0 ∧
    List.Perm (showCurrentArtist rand0 0 sPast).artists sPast.artists ∧
    (showCurrentArtist rand0 0 sPast).phase = .playing ∧
    (showCurrentArtist rand0 0 sPast).timerActive = true :=
  have h := pool_exhaustion_reshuffles rand0 0 sPast rfl rfl (by decide)
  ⟨h.1, h.2.1, h.2.2.1, h.2.2.2.1⟩

/-! ## Claim C7 -/

/-- C7 (documenting a code bug): with 5 artists against the 20-artist
minimum, the shortage check of `fetchArtists` does build the structured
diagnostic — found=5, needed=20, plus the popularity filter, playlist,
team-count and timing values — and shows the error phase; but
`fetchArtists` then merely returns, the `DOMContentLoaded` handler calls
`showReadyPhase()` unconditionally, which hides the error phase again, and
pressing Go still reaches Playing: the game can start under-provisioned,
contrary to the spec's "Playing is never reached". -/
theorem artist_shortage_diagnostic_overwritten :
    fetchArtists rand0 cfgShort poolFive =
      .shortage ⟨5, 20, 20, 0, ["pl1"], 2, 60⟩ ∧
    (pageInit rand0 cfgShort poolFive).phase = .ready ∧
    (startRound cfgShort rand0 0 (pageInit rand0 cfgShort poolFive)).phase
      = .playing := by
  refine ⟨by decide, by decide, by decide⟩

/-! ## Claim C10 -/

/-- C10 counterexample: in a two-artist pool the artist displayed when time
ran out (index 1) is skipped by `endRound`'s index advance — but the
advance runs past the pool's end, the next round therefore reshuffles, and
under this shuffle outcome that very artist is the first one shown to the
next player, refuting the claim's "never". -/
theorem endRound_skip_cex :
    sEnd.artists[sEnd.currentArtistIndex]? = some artB ∧
    (endRound cfgW sEnd).currentArtistIndex = 2 ∧
    ((startRound cfgW rand0 0 (endRound cfgW sEnd)).artists[
      (startRound cfgW rand0 0 (endRound cfgW sEnd)).currentArtistIndex]?)
      = some artB := by
  refine ⟨by decide, by decide, by decide⟩

/-- C10 amended: `endRound` advances the artist index by exactly one while
recording no signal (player stats and scores untouched), so the artist on
display at timeout is skipped; and provided the advanced index is still
inside the pool (so no reshuffle intervenes), the next round's first
artist is the successor entry, which for a duplicate-free pool is not the
skipped artist.  Only when the advance passes the pool's end can the
reshuffle place the skipped artist first again. -/
theorem endRound_advances_index (cfg : GameConfig) (rand : Nat → Nat)
    (now : Int) (s : GameState)
    (hin : s.currentArtistIndex + 1 < s.artists.length)
    (hnd : s.artists.Nodup) :
    (endRound cfg s).currentArtistIndex = s.currentArtistIndex + 1 ∧
    (endRound cfg s).playerStats = s.playerStats ∧
    (endRound cfg s).scores = s.scores ∧
    ((startRound cfg rand now (endRound cfg s)).artists[
      (startRound cfg rand now (endRound cfg s)).currentArtistIndex]?)
      = s.artists[s.currentArtistIndex + 1]? ∧
    ((startRound cfg rand now (endRound cfg s)).artists[
      (startRound cfg rand now (endRound cfg s)).currentArtistIndex]?)
      ≠ s.artists[s.currentArtistIndex]? := by
  have hshown : (startRound cfg rand now (endRound cfg s)).artists = s.artists ∧
      (startRound cfg rand now (endRound cfg s)).currentArtistIndex
        = s.currentArtistIndex + 1 := by
    have hlt : ¬ ((endRound cfg s).artists.length ≤ (endRound cfg s).currentArtistIndex) := by
      rw [endRound_artists, endRound_currentArtistIndex]
      omega
    unfold startRound showCurrentArtist
    dsimp only
    rw [if_neg (by simpa using hlt)]
    simp
  refine ⟨by simp, by simp, by simp, ?_, ?_⟩
  · rw [hshown.1, hshown.2]
  · rw [hshown.1, hshown.2]
    have h0 : s.currentArtistIndex < s.artists.length := by omega
    rw [List.getElem?_eq_getElem hin, List.getElem?_eq_getElem h0]
    intro heq
    have heq' : s.artists[s.currentArtistIndex + 1] = s.artists[s.currentArtistIndex] :=
      Option.some.inj heq
    have := (List.Nodup.getElem_inj_iff hnd).mp heq'
    omega

/-- Witness for C10's amended theorem: a three-artist pool mid-round at
index 0; ending the round skips to index 1 and the next round first shows
the second artist, not the skipped first one. -/
theorem endRound_advance_witness :
    (endRound cfgW sMid).currentArtistIndex = sMid.currentArtistIndex + 1 ∧
    ((startRound cfgW rand0 0 (endRound cfgW sMid)).artists[
      (startRound cfgW rand0 0 (endRound cfgW sMid)).currentArtistIndex]?)
      = sMid.artists[sMid.currentArtistIndex + 1]? ∧
    ((startRound cfgW rand0 0 (endRound cfgW sMid)).artists[
      (startRound cfgW rand0 0 (endRound cfgW sMid)).currentArtistIndex]?)
      ≠ sMid.artists[sMid.currentArtistIndex]? :=
  have h := endRound_advances_index cfgW rand0 0 sMid (by decide) (by decide)
  ⟨h.1, h.2.2.2.1, h.2.2.2.2⟩

/-! ## Claim C9 -/

/-- C9 counterexample: when the provider reports an authorization error in
the callback parameters, `handleCallback` throws before touching the
verifier, so the stored PKCE verifier survives, contrary to the claim. -/
theorem handleCallback_authError_keeps_verifier :
    (handleCallback 0 ⟨some "code1", some "access_denied"⟩ none authPending).1.lsCodeVerifier
      = some "ver1" ∧
    (handleCallback 0 ⟨some "code1", some "access_denied"⟩ none authPending).2
      = .authDenied "access_denied" :=
  ⟨rfl, rfl⟩

/-- C9 amended: whenever the handler actually reaches the code exchange
(no provider error, a code present, a stored verifier), the verifier slot
is cleared whether the exchange succeeds, fails with a non-ok response, or
fails with a network error; when the provider reports an error in the
callback parameters the handler throws beforehand and the state (verifier
included) is unchanged. -/
theorem handleCallback_verifier_lifecycle (now : Int) (params : CallbackParams)
    (resp : Option HttpResp) (s : AuthState) :
    (params.errorParam = none → params.code.isSome = true →
      s.lsCodeVerifier.isSome = true →
      (handleCallback now params resp s).1.lsCodeVerifier = none) ∧
    (∀ e, params.errorParam = some e →
      handleCallback now params resp s = (s, .authDenied e)) := by
  constructor
  · intro he hc hv
    obtain ⟨c, hc⟩ := Option.isSome_iff_exists.mp hc
    obtain ⟨v, hv⟩ := Option.isSome_iff_exists.mp hv
    cases resp with
    | none => simp [handleCallback, he, hc, hv]
    | some r =>
      cases r with
      | ok tok rt exp => simp [handleCallback, he, hc, hv]
      | err st => simp [handleCallback, he, hc, hv]
  · intro e he
    simp [handleCallback, he]

/-- Witness for C9's amended theorem: a concrete successful exchange and a
concrete failed exchange, both clearing the verifier slot. -/
theorem handleCallback_verifier_witness :
    (handleCallback 0 ⟨some "code1", none⟩ (some (.ok "tok" (some "rt") 3600))
      authPending).1.lsCodeVerifier = none ∧
    (handleCallback 0 ⟨some "code1", none⟩ (some (.err 400))
      authPending).1.lsCodeVerifier = none :=
  ⟨(handleCallback_verifier_lifecycle 0 ⟨some "code1", none⟩
      (some (.ok "tok" (some "rt") 3600)) authPending).1 rfl rfl rfl,
   (handleCallback_verifier_lifecycle 0 ⟨some "code1", none⟩
      (some (.err 400)) authPending).1 rfl rfl rfl⟩

end GTA
